import Mathlib

/-
Verification of the access-classification engine of gcstoragenlyzer
(src/gcstoragenlyzer/analyzer.py) via a shallow embedding in Lean 4.

Conventions of the embedding:
* Python strings are Lean `String`s; Python string operations are modelled
  character-wise on `String.data` (code-point semantics, as in Python).
* Python `sorted` on strings is modelled by a stable insertion sort `sortLe`
  with the code-point lexicographic order `strLe` (Python compares strings by
  code point; `sorted` is stable).
* The out-of-process collaborators (GCS listing, IAM policy fetch, object ACL
  fetch, HTTP HEAD probe, regex engine, gitleaks) are explicit inputs:
  a bucket's contents are a finite `RawDir` tree of listings, the HTTP layer
  is a function `Http` from probed path to response (`Except Unit Nat`:
  a network failure/timeout, or a status code), the ACL layer is a function
  `AclEnv` from object name to response.
* Fallible Python code (try/except) is modelled with `Except` inputs and
  total functions that map the error case to the value the handler produces.
-/

namespace Gcsa

/-- Python `s.rstrip('/')`: drop all trailing slash characters. -/
def rstripSlash (s : String) : String :=
  ⟨(s.data.reverse.dropWhile (fun c => c == '/')).reverse⟩

/-- Python `clean_path.split('/')[-1] if '/' in clean_path else clean_path`
(analyzer.py:542): the characters after the last slash. -/
def lastComponent (s : String) : String :=
  ⟨(s.data.reverse.takeWhile (fun c => c != '/')).reverse⟩

/-- Python `needle in s` on a character list: contiguous sublist test. -/
def subOfAux (needle : List Char) : List Char → Bool
  | [] => needle.isEmpty
  | c :: cs => needle.isPrefixOf (c :: cs) || subOfAux needle cs

/-- Python substring membership `needle in s`. -/
def strContainsStr (needle s : String) : Bool := subOfAux needle.data s.data

/-- Python `c in s` for a single character. -/
def strContainsChar (s : String) (c : Char) : Bool := s.data.contains c

/-- Python `s[:n]` (take the first `n` characters). -/
def strTakeN (n : Nat) (s : String) : String := ⟨s.data.take n⟩

/-- Python `s[-n:]` (take the last `n` characters, or all of `s` if shorter). -/
def strTakeRightN (n : Nat) (s : String) : String := ⟨(s.data.reverse.take n).reverse⟩

/-- Code-point lexicographic comparison of character lists, as Python compares
strings. -/
def strLeCh : List Char → List Char → Bool
  | [], _ => true
  | _ :: _, [] => false
  | a :: as, b :: bs =>
    if a.toNat < b.toNat then true
    else if b.toNat < a.toNat then false
    else strLeCh as bs

/-- Python string `<=` (code-point lexicographic order). -/
def strLe (s t : String) : Bool := strLeCh s.data t.data

/-- Stable insertion step of the model of Python `sorted`. -/
def insertLe {α : Type} (le : α → α → Bool) (a : α) : List α → List α
  | [] => [a]
  | b :: bs => if le a b then a :: b :: bs else b :: insertLe le a bs

/-- Stable sort modelling Python `sorted` (Python's sort is stable; for the
string keys used here, stability is immaterial since equal keys are equal
strings). -/
def sortLe {α : Type} (le : α → α → Bool) : List α → List α
  | [] => []
  | a :: as => insertLe le a (sortLe le as)

/-- HTTP layer (the `requests.head` collaborator): for each probed path the
network either fails (`error`, covering connection failures and the 5-second
timeout of analyzer.py:464 firing, both raised as `RequestException`) or
returns a status code. -/
def Http : Type := String → Except Unit Nat

/-- Timeout (in seconds) passed to `requests.head` at analyzer.py:464. -/
def http_probe_timeout_seconds : Nat := 5

/-- GCSAnalyzer.check_public_access_http (analyzer.py:458-467): true exactly on
a completed request with status code 200; any `RequestException` yields false. -/
def check_public_access_http (http : Http) (path : String) : Bool :=
  match http path with
  | .ok status_code => status_code == 200
  | .error _ => false

/-- One ACL entry of an object (entity, role), as iterated at analyzer.py:85. -/
structure AclEntry where
  entity : String
  role : String
deriving DecidableEq

/-- ACL layer: fetching an object's ACL either fails (the bare `except` of
analyzer.py:88) or yields its entries. -/
def AclEnv : Type := String → Except Unit (List AclEntry)

/-- GCSAnalyzer.is_public_acl (analyzer.py:83-90): true iff some ACL entry has
role READER and entity allUsers/allAuthenticatedUsers; any exception during the
fetch yields false. -/
def is_public_acl (acl : AclEnv) (object_name : String) : Bool :=
  match acl object_name with
  | .error _ => false
  | .ok entries =>
    entries.any fun e =>
      e.role == "READER" && (e.entity == "allUsers" || e.entity == "allAuthenticatedUsers")

/-- One IAM policy binding, as read from `policy.bindings`: member principals,
a role string, and an optional condition expression (the `expression` field of
the binding's condition dict). -/
structure IamBinding where
  members : List String
  role : String
  condition : Option String
deriving DecidableEq

/-- GCSAnalyzer.is_public_iam_simple (analyzer.py:75-81). -/
def is_public_iam_simple (bindings : List IamBinding) : Bool :=
  bindings.any fun binding =>
    !(binding.members.filter fun m => m == "allUsers" || m == "allAuthenticatedUsers").isEmpty &&
      strContainsStr "storage.objectViewer" binding.role

/-- One entry of the exposure map (the dicts built at analyzer.py:485-505). -/
structure ExposureBinding where
  role : String
  members : List String
  condition : String
  is_recursive : Bool
deriving DecidableEq

/-- The ExposureMap: a Python dict from normalized key-prefix to the list of
exposure records, modelled as an insertion-ordered association list. -/
abbrev ExposureMap : Type := List (String × List ExposureBinding)

/-- Python `d[k] = v` on the association list (replace in place, or append). -/
def setEntry : ExposureMap → String → List ExposureBinding → ExposureMap
  | [], k, v => [(k, v)]
  | (k', v') :: rest, k, v =>
    if k' == k then (k, v) :: rest else (k', v') :: setEntry rest k v

/-- Python `d.setdefault(k, []).append(b)` as done at analyzer.py:496-505. -/
def appendEntry : ExposureMap → String → ExposureBinding → ExposureMap
  | [], k, b => [(k, [b])]
  | (k', v') :: rest, k, b =>
    if k' == k then (k, v' ++ [b]) :: rest else (k', v') :: appendEntry rest k b

/-- Python `d.get(k)` on the association list. -/
def lookupEntry : ExposureMap → String → Option (List ExposureBinding)
  | [], _ => none
  | (k', v) :: rest, k => if k' == k then some v else lookupEntry rest k

/-- Python `k in d` on the association list. -/
def hasKey (m : ExposureMap) (k : String) : Bool := (lookupEntry m k).isSome

/-- Quote character class `["\x27"]` of the regexes at analyzer.py:511,519:
a double or single quote. -/
def isQuote (c : Char) : Bool := c == '"' || c == Char.ofNat 39

/-- Literal head of the condition regexes: `resource.name.<fname>(`. -/
def condLead (fname : String) : List Char := ("resource.name." ++ fname ++ "(").data

/-- Literal resource-name portion of the condition regexes:
`projects/_/buckets/<bucket>/objects/`. -/
def condResource (bucket_name : String) : List Char :=
  ("projects/_/buckets/" ++ bucket_name ++ "/objects/").data

/-- Match of the condition regex anchored at the start of `s`: the literal
lead, an opening quote, the literal resource-name portion, then the capture
group `[^quotes]+` (greedy, and deterministic here: it must stop at the first
quote), a closing quote and `)`. Returns the captured group. The bucket name
is taken literally, which matches `re.search` on the interpolated pattern for
bucket names free of regex metacharacters. -/
def matchCondAt (fname bucket_name : String) (s : List Char) : Option (List Char) :=
  if (condLead fname).isPrefixOf s then
    match s.drop (condLead fname).length with
    | q :: rest =>
      if isQuote q then
        if (condResource bucket_name).isPrefixOf rest then
          let rest2 := rest.drop (condResource bucket_name).length
          let grp := rest2.takeWhile fun c => !isQuote c
          if grp.isEmpty then none
          else
            match rest2.drop grp.length with
            | q2 :: c :: _ => if isQuote q2 && c == ')' then some grp else none
            | _ => none
        else none
      else none
    | [] => none
  else none

/-- Python `re.search` over the condition pattern: the leftmost match wins. -/
def searchCond (fname bucket_name : String) : List Char → Option (List Char)
  | [] => none
  | c :: rest =>
    match matchCondAt fname bucket_name (c :: rest) with
    | some grp => some grp
    | none => searchCond fname bucket_name rest

/-- GCSAnalyzer._extract_prefix_from_condition (analyzer.py:509-526): try the
`startsWith` shape (group, right-stripped of slashes), then the `matches`
shape (group with all `*` removed — Python removes `**` then `*`, which
deletes every star — then right-stripped), else `none`. -/
def _extract_prefix_from_condition (condition_expr : String) (bucket_name : String) :
    Option String :=
  match searchCond "startsWith" bucket_name condition_expr.data with
  | some grp => some (rstripSlash ⟨grp⟩)
  | none =>
    match searchCond "matches" bucket_name condition_expr.data with
    | some grp => some (rstripSlash ⟨grp.filter fun c => c != '*'⟩)
    | none => none

/-- One iteration of the binding loop of GCSAnalyzer.get_exposed_prefixes_from_iam
(analyzer.py:472-505): skip bindings without public members, skip bindings
whose role has no object-read role, record unconditional bindings under the
bucket-root key `""` (dict assignment, replacing), and for conditional
bindings record under the extracted prefix (appending) — or skip silently when
no prefix can be extracted. -/
def processBinding (bucket_name : String) (exposed : ExposureMap) (binding : IamBinding) :
    ExposureMap :=
  let public_members :=
    binding.members.filter fun m => m == "allUsers" || m == "allAuthenticatedUsers"
  if public_members.isEmpty then exposed
  else if !strContainsStr "storage.objectViewer" binding.role &&
      !strContainsStr "storage.legacyObjectReader" binding.role then exposed
  else
    match binding.condition with
    | none =>
      setEntry exposed ""
        [⟨binding.role, public_members, "No condition - bucket level public", true⟩]
    | some expr =>
      match _extract_prefix_from_condition expr bucket_name with
      | none => exposed
      | some pfx =>
        appendEntry exposed pfx
          ⟨binding.role, public_members, expr, strContainsStr "**" expr⟩

/-- GCSAnalyzer.get_exposed_prefixes_from_iam (analyzer.py:469-507). -/
def get_exposed_prefixes_from_iam (bindings : List IamBinding) (bucket_name : String) :
    ExposureMap :=
  bindings.foldl (processBinding bucket_name) []

mutual
/-- Contents of the bucket as the storage gateway exposes them: for each
prefix, the one-level listing (`_list_folders_and_objects_raw`,
analyzer.py:436-456, before its sorting step) yields the direct object names
and the one-level subprefixes, in arbitrary gateway order. A `RawDir` carries
its own full prefix string in `path`. -/
inductive RawDir : Type where
  | node (path : String) (objects : List String) (subdirs : RawForest)

/-- List of sibling `RawDir`s (a separate mutual inductive so that recursion
over the tree is structural and kernel-computable). -/
inductive RawForest : Type where
  | nil : RawForest
  | cons (d : RawDir) (ds : RawForest) : RawForest
end

/-- Prefix string of a raw directory. -/
def RawDir.path : RawDir → String
  | .node p _ _ => p

/-- Direct object names of a raw directory (gateway order). -/
def RawDir.objects : RawDir → List String
  | .node _ o _ => o

/-- Direct subdirectories of a raw directory (gateway order). -/
def RawDir.subdirs : RawDir → RawForest
  | .node _ _ s => s

/-- Result node of the uniform-access scan: the dict built at
analyzer.py:540-549 (`path`, `name`, `is_public`, `reason`, `subfolders`,
`objects`, `object_count`, `objects_status`). -/
inductive FolderNode : Type where
  | mk (path name : String) (is_public : Bool) (reason : String)
      (subfolders : List FolderNode) (objects : List String)
      (object_count : Nat) (objects_status : String)

/-- Field `path` of a folder node. -/
def FolderNode.path : FolderNode → String
  | .mk p _ _ _ _ _ _ _ => p

/-- Field `name` of a folder node. -/
def FolderNode.name : FolderNode → String
  | .mk _ n _ _ _ _ _ _ => n

/-- Field `is_public` of a folder node. -/
def FolderNode.is_public : FolderNode → Bool
  | .mk _ _ b _ _ _ _ _ => b

/-- Field `reason` of a folder node. -/
def FolderNode.reason : FolderNode → String
  | .mk _ _ _ r _ _ _ _ => r

/-- Field `subfolders` of a folder node. -/
def FolderNode.subfolders : FolderNode → List FolderNode
  | .mk _ _ _ _ s _ _ _ => s

/-- Field `objects` of a folder node. -/
def FolderNode.objects : FolderNode → List String
  | .mk _ _ _ _ _ o _ _ => o

/-- Field `object_count` of a folder node. -/
def FolderNode.object_count : FolderNode → Nat
  | .mk _ _ _ _ _ _ c _ => c

/-- Field `objects_status` of a folder node. -/
def FolderNode.objects_status : FolderNode → String
  | .mk _ _ _ _ _ _ _ st => st

/-- Filter applied to each listed subprefix at analyzer.py:573-574: the
subprefix relative to the current folder must be nonempty and contain no
further slash once its trailing slash is stripped. -/
def subRelOk (folder_path sub : String) : Bool :=
  let rel : String :=
    if folder_path.data.isPrefixOf sub.data then ⟨sub.data.drop folder_path.data.length⟩
    else sub
  rel != "" && !strContainsChar (rstripSlash rel) '/'

mutual
/-- GCSAnalyzer.scan_folder_recursive (analyzer.py:528-583). Classification
(analyzer.py:535-564): public iff the parent is public, or the
slash-stripped path is a key of the exposure map, or the HTTP probe of the
path succeeds — with the matching reason / objects_status strings. Listing
and aggregation (analyzer.py:566-581): `objects` is the sorted direct object
list, `object_count` its length, and `subfolders` the recursive results over
the sorted, relative-filtered subprefixes, each receiving this node's public
flag as parent flag. The source sorts the subprefix strings and then recurses
in that order; the embedding recurses first and then sorts the (path, node)
pairs by path — equivalent, since each recursive result keeps its prefix
string and the sort key is exactly that string. -/
def scan_folder_recursive (exposed : ExposureMap) (http : Http)
    (folder : RawDir) (parent_is_public : Bool) : FolderNode :=
  match folder with
  | .node folder_path rawObjects subs =>
    let clean_path := rstripSlash folder_path
    let is_pub := parent_is_public || hasKey exposed clean_path ||
      check_public_access_http http (clean_path ++ "/")
    let rs : String × String :=
      if parent_is_public then
        ("Parent folder is public, so this folder is public",
         "All objects PUBLIC (parent inheritance)")
      else if hasKey exposed clean_path then
        match lookupEntry exposed clean_path with
        | some (b :: _) =>
          ("Direct public via IAM condition: " ++ b.role,
           "All objects PUBLIC (IAM policy)")
        | _ => ("", "")
      else if is_pub then
        ("Detected public via HTTP access test", "All objects PUBLIC (HTTP test)")
      else
        ("Private (no IAM condition, HTTP test failed)", "All objects PRIVATE")
    let real_objects := sortLe strLe rawObjects
    let children := scanSubfolders exposed http subs is_pub
    let kept := (sortLe (fun a b => strLe a.1 b.1) children).filter
      fun pr => subRelOk folder_path pr.1
    FolderNode.mk folder_path (lastComponent clean_path) is_pub rs.1
      (kept.map fun pr => pr.2) real_objects real_objects.length rs.2

/-- Recursive results for each sibling subdirectory, keyed by the raw
subprefix string, every child receiving the parent's public flag
(analyzer.py:575-580). -/
def scanSubfolders (exposed : ExposureMap) (http : Http)
    (subs : RawForest) (is_pub : Bool) : List (String × FolderNode) :=
  match subs with
  | .nil => []
  | .cons d ds =>
    (d.path, scan_folder_recursive exposed http d is_pub) ::
      scanSubfolders exposed http ds is_pub
end

/-- Per-object result of the fine-grained tree (analyzer.py:704-707). -/
structure ObjEntry where
  name : String
  is_public : Bool
deriving DecidableEq

/-- Result node of the fine-grained scan: the dict built at
analyzer.py:691-697 (`path`, `subfolders`, `objects`, `total_object_count`,
`public_object_count`). -/
inductive FineNode : Type where
  | mk (path : String) (subfolders : List FineNode) (objects : List ObjEntry)
      (total_object_count public_object_count : Nat)

/-- Field `path` of a fine-grained node. -/
def FineNode.path : FineNode → String
  | .mk p _ _ _ _ => p

/-- Field `subfolders` of a fine-grained node. -/
def FineNode.subfolders : FineNode → List FineNode
  | .mk _ s _ _ _ => s

/-- Field `objects` of a fine-grained node. -/
def FineNode.objects : FineNode → List ObjEntry
  | .mk _ _ o _ _ => o

/-- Field `total_object_count` of a fine-grained node. -/
def FineNode.total_object_count : FineNode → Nat
  | .mk _ _ _ t _ => t

/-- Field `public_object_count` of a fine-grained node. -/
def FineNode.public_object_count : FineNode → Nat
  | .mk _ _ _ _ p => p

mutual
/-- GCSAnalyzer.build_fine_grained_tree (analyzer.py:687-723). Every sorted
direct object is classified via its own ACL or the HTTP probe
(analyzer.py:702) and counted; the sorted subfolder results are appended and
their counts added (analyzer.py:716-721). As with the uniform scan, the
embedding recurses before sorting the (prefix, node) pairs by prefix, which
matches the source's sort-then-recurse on the prefix strings. -/
def build_fine_grained_tree (acl : AclEnv) (http : Http) (dir : RawDir) : FineNode :=
  match dir with
  | .node pfx rawObjects subs =>
    let pathStr := if rstripSlash pfx == "" then "root" else rstripSlash pfx
    let objs := (sortLe strLe rawObjects).map fun obj_name =>
      ObjEntry.mk obj_name
        (is_public_acl acl obj_name || check_public_access_http http obj_name)
    let children := buildFineSubfolders acl http subs
    let sortedChildren := (sortLe (fun a b => strLe a.1 b.1) children).map fun pr => pr.2
    FineNode.mk pathStr sortedChildren objs
      (objs.length + (sortedChildren.map FineNode.total_object_count).sum)
      ((objs.filter fun o => o.is_public).length +
        (sortedChildren.map FineNode.public_object_count).sum)

/-- Recursive fine-grained results for each sibling subdirectory, keyed by the
raw subprefix string (analyzer.py:716-718; no relative filter here). -/
def buildFineSubfolders (acl : AclEnv) (http : Http) : RawForest → List (String × FineNode)
  | .nil => []
  | .cons d ds =>
    (d.path, build_fine_grained_tree acl http d) :: buildFineSubfolders acl http ds
end

/-- GCSAnalyzer._count_public_folders (analyzer.py:663-669). -/
def count_public_folders : List FolderNode → Nat
  | [] => 0
  | FolderNode.mk _ _ is_pub _ subf _ _ _ :: fs =>
    (if is_pub then 1 else 0) + count_public_folders subf + count_public_folders fs

/-- GCSAnalyzer._count_total_folders (analyzer.py:671-675). -/
def count_total_folders : List FolderNode → Nat
  | [] => 0
  | FolderNode.mk _ _ _ _ subf _ _ _ :: fs =>
    1 + count_total_folders subf + count_total_folders fs

/-- Summary dict of a bucket scan; fields absent from a given result shape are
`none`. -/
structure ScanSummary where
  status : String
  message : String
  reason : Option String
  total_folders : Option Nat
  public_folders : Option Nat
  total_objects : Option Nat
  public_objects : Option Nat
deriving DecidableEq

/-- The `root_objects` sub-dict of a uniform whole-bucket scan
(analyzer.py:638-642). -/
structure RootObjectsInfo where
  count : Nat
  status : String
  objects : List String

/-- Result of GCSAnalyzer.scan_bucket_uniform_access: either the mode-mismatch
dict of analyzer.py:596-600, or the full result dict (with its constant
`uniform_access: True` key dropped, `bucket_level_public`, `folders`,
optional `root_objects`, and `summary`). -/
inductive UniformScanResult : Type where
  | mismatch (error : String) (bucket_name : String) (uniform_access : Bool)
  | ok (bucket_name : String) (bucket_level_public : Bool)
      (folders : List FolderNode) (root_objects : Option RootObjectsInfo)
      (summary : ScanSummary)

/-- GCSAnalyzer.scan_bucket_uniform_access (analyzer.py:585-661). Inputs
model the collaborators: `is_uniform` the bucket's
uniform_bucket_level_access flag, `bindings` its IAM policy, `http` the
probe layer, `root` the root listing (its `path` is the empty prefix).
Non-uniform buckets get the structured mode-mismatch dict; a bucket-level
public exposure (bucket-wide binding, i.e. key `""`, or root probe success)
short-circuits to the CRITICAL result with no folder walk; otherwise each
root subprefix is scanned recursively (no relative filter at this level) and
the summary counts public folders. -/
def scan_bucket_uniform_access (bucket_name : String) (is_uniform : Bool)
    (bindings : List IamBinding) (http : Http) (root : RawDir) : UniformScanResult :=
  if !is_uniform then
    .mismatch "This bucket is not in Uniform Access mode. Using fine-grained ACL."
      bucket_name false
  else
    let exposed := get_exposed_prefixes_from_iam bindings bucket_name
    let bucket_public := hasKey exposed "" || check_public_access_http http ""
    if bucket_public then
      .ok bucket_name true [] none
        ⟨"CRITICAL", "Bucket is completely PUBLIC! All folders and objects are exposed.",
         some "Detected via IAM Policy or HTTP test", none, none, none, none⟩
    else
      let pairs := scanSubfolders exposed http root.subdirs false
      let folders := (sortLe (fun a b => strLe a.1 b.1) pairs).map fun pr => pr.2
      let real_root_objects := sortLe strLe root.objects
      let root_objects : Option RootObjectsInfo :=
        if real_root_objects.isEmpty then none
        else
          let root_public := hasKey exposed "" || check_public_access_http http ""
          some ⟨real_root_objects.length, if root_public then "PUBLIC" else "PRIVATE",
                real_root_objects⟩
      let public_folders := count_public_folders folders
      let total_folders := count_total_folders folders
      .ok bucket_name false folders root_objects
        ⟨if public_folders > 0 then "WARNING" else "SAFE",
         if public_folders > 0 then
           toString public_folders ++ "/" ++ toString total_folders ++ " folders public"
         else "No folders are public",
         none, some total_folders, some public_folders, none, none⟩

/-- Result of GCSAnalyzer.scan_bucket_fine_grained_access: either the
mode-mismatch dict of analyzer.py:732-736, or the full result dict (its
constant `fine_grained: True` key dropped). -/
inductive FineScanResult : Type where
  | mismatch (error : String) (bucket_name : String) (uniform_access : Bool)
  | ok (bucket_name : String) (bucket_level_public : Bool)
      (folder_tree : Option FineNode) (summary : ScanSummary)

/-- GCSAnalyzer.scan_bucket_fine_grained_access (analyzer.py:725-780).
Uniform buckets get the structured mode-mismatch dict; a bucket-level public
exposure (simple IAM check or root probe) short-circuits to the CRITICAL
result; otherwise the fine-grained tree is built and summarized. -/
def scan_bucket_fine_grained_access (bucket_name : String) (is_uniform : Bool)
    (bindings : List IamBinding) (acl : AclEnv) (http : Http) (root : RawDir) :
    FineScanResult :=
  if is_uniform then
    .mismatch "This bucket is not in Fine-Grained mode. Using Uniform Access."
      bucket_name true
  else
    let bucket_public := is_public_iam_simple bindings || check_public_access_http http ""
    if bucket_public then
      .ok bucket_name true none
        ⟨"CRITICAL", "Bucket is completely PUBLIC! All objects are exposed.",
         some "Detected via IAM Policy or HTTP test", none, none, none, none⟩
    else
      let folder_tree := build_fine_grained_tree acl http root
      let total_objects := folder_tree.total_object_count
      let public_objects := folder_tree.public_object_count
      .ok bucket_name false (some folder_tree)
        ⟨if public_objects > 0 then "WARNING" else "SAFE",
         if public_objects > 0 then
           toString public_objects ++ "/" ++ toString total_objects ++ " objects public"
         else "No objects are public",
         none, none, none, some total_objects, some public_objects⟩

/-- Finding dict appended by GCSAnalyzer._scan_object_for_patterns
(analyzer.py:178-187 and 206-215). -/
structure Finding where
  object : String
  pattern_key : String
  pattern_name : String
  match_raw : String
  match_masked : String
  validator : Option String
  validator_ok : Bool
  validator_reason : String
deriving DecidableEq

/-- One regex match as the external regex engine and validator deliver it to
the finding loop of analyzer.py:158-187: the pattern's key and display name,
the chosen-and-stripped candidate string (`candidate_str`), the pattern's
optional validator name, and that validator's verdict. -/
structure PatternMatch where
  pattern_key : String
  pattern_name : String
  candidate_str : String
  validator : Option String
  validator_ok : Bool
  validator_reason : String

/-- Masking expression of analyzer.py:175-176:
`candidate_str if no_mask else (candidate_str[:4] + "..." + candidate_str[-4:]
if len(candidate_str) > 8 else "...")`. -/
def maskCandidate (no_mask : Bool) (candidate_str : String) : String :=
  if no_mask then candidate_str
  else if candidate_str.length > 8 then
    strTakeN 4 candidate_str ++ "..." ++ strTakeRightN 4 candidate_str
  else "..."

/-- Finding built for one regex match (analyzer.py:165-187): a failing
validator suppresses the finding; without a validator the verdict defaults to
true with reason "Regex match sufficient". -/
def patternFinding (object_name : String) (no_mask : Bool) (m : PatternMatch) :
    Option Finding :=
  match m.validator with
  | some validator_name =>
    if !m.validator_ok then none
    else some ⟨object_name, m.pattern_key, m.pattern_name, m.candidate_str,
      maskCandidate no_mask m.candidate_str, some validator_name,
      m.validator_ok, m.validator_reason⟩
  | none =>
    some ⟨object_name, m.pattern_key, m.pattern_name, m.candidate_str,
      maskCandidate no_mask m.candidate_str, none, true, "Regex match sufficient"⟩

/-- One secret from the parsed gitleaks JSON report (analyzer.py:202-205). -/
structure GitleaksLeak where
  secret : String
  description : String
  start_line : Nat

/-- Finding built for one gitleaks leak (analyzer.py:204-215): note the
source computes `masked_value` unconditionally and then picks
`masked_value if not no_mask else leak['Secret']`. -/
def gitleaksFinding (object_name : String) (no_mask : Bool) (leak : GitleaksLeak) :
    Finding :=
  let masked_value :=
    if leak.secret.length > 8 then
      strTakeN 4 leak.secret ++ "..." ++ strTakeRightN 4 leak.secret
    else "..."
  ⟨object_name, "Gitleaks", "Gitleaks Secret", leak.secret,
   if !no_mask then masked_value else leak.secret,
   some "Gitleaks", true,
   "Rule: " ++ leak.description ++ ", Line: " ++ toString leak.start_line⟩

/-- Findings produced by GCSAnalyzer._scan_object_for_patterns
(analyzer.py:130-229) for one object, given the external collaborators'
outputs: the regex matches over the downloaded content and — when gitleaks is
enabled and its report parsed (return code 0 or 1, nonempty stdout) — the
leaks. Regex findings come first, in match order, then the gitleaks findings. -/
def _scan_object_for_patterns (object_name : String) (no_mask : Bool)
    (regex_matches : List PatternMatch) (use_gitleaks : Bool)
    (leaks : List GitleaksLeak) : List Finding :=
  regex_matches.filterMap (patternFinding object_name no_mask) ++
    (if use_gitleaks then leaks.map (gitleaksFinding object_name no_mask) else [])

/-- Reflexive-transitive reachability inside a scan result tree: `InUTree t n`
holds when `n` is `t` itself or a node of one of its subtrees. -/
inductive InUTree : FolderNode → FolderNode → Prop
  | refl (t : FolderNode) : InUTree t t
  | step {t c n : FolderNode} : c ∈ t.subfolders → InUTree c n → InUTree t n

/-- Reflexive-transitive reachability inside a fine-grained result tree. -/
inductive InFTree : FineNode → FineNode → Prop
  | refl (t : FineNode) : InFTree t t
  | step {t c n : FineNode} : c ∈ t.subfolders → InFTree c n → InFTree t n

/-- Probe layer that answers every HEAD request with status 200. -/
def httpAll200 : Http := fun _ => Except.ok 200

/-- Probe layer on which every HEAD request fails (connection error/timeout). -/
def httpDown : Http := fun _ => Except.error ()

/-- ACL layer returning an empty entry list for every object. -/
def aclEmpty : AclEnv := fun _ => Except.ok []

/-- Sample listing: folder `p/` with no direct objects and one subfolder
`p/q/` holding one object. -/
def sampleTree : RawDir := .node "p/" [] (.cons (.node "p/q/" ["p/q/x"] .nil) .nil)

/-- IAM binding of the C3 example: objectViewer for allUsers, conditioned on
the prefix `public/` of bucket `b`. -/
def c3Binding : IamBinding :=
  ⟨["allUsers"], "roles/storage.objectViewer",
   some "resource.name.startsWith(\"projects/_/buckets/b/objects/public/\")"⟩

/-- ExposureMap of the C3 example, built by the IAM parser itself. -/
def c3Map : ExposureMap := get_exposed_prefixes_from_iam [c3Binding] "b"

/-- Root listing used by the C4 witness: one root object and one subfolder
(whose contents would require probes if the walk were not short-circuited). -/
def rootSample : RawDir := .node "" ["z"] (.cons (.node "f/" ["f/x"] .nil) .nil)

/-- IAM binding granting objectViewer bucket-wide to allUsers (no condition). -/
def bucketWideBinding : IamBinding := ⟨["allUsers"], "roles/storage.objectViewer", none⟩

/-- Probe layer of the C6 witness: 200 for `secrets/`, failure elsewhere. -/
def httpSecrets : Http := fun p => if p == "secrets/" then Except.ok 200 else Except.error ()

/-- Condition expression of the C7 witness: an endsWith predicate, a shape
the extractor does not recognize. -/
def c7expr : String := "resource.name.endsWith(\"projects/_/buckets/b/objects/secret/\")"

/-- Qualifying binding (public member, object-read role) with the
unrecognized condition shape. -/
def c7Binding : IamBinding := ⟨["allUsers"], "roles/storage.objectViewer", some c7expr⟩

/-- Non-qualifying binding: no public member. -/
def c7NoPub : IamBinding := ⟨["user:alice@example.com"], "roles/storage.objectViewer", none⟩

/-- ACL layer of the C8 witness: `f/x` carries an allUsers READER entry,
everything else has an empty ACL. -/
def aclC8 : AclEnv :=
  fun n => if n == "f/x" then Except.ok [⟨"allUsers", "READER"⟩] else Except.ok []

/-- Listing of the C8 witness: folder `f/` with sibling objects `f/x`, `f/y`. -/
def dC8 : RawDir := .node "f/" ["f/x", "f/y"] .nil

/-- Regex match of the C10 witness. -/
def m10 : PatternMatch := ⟨"aws", "AWS Key", "AKIA1234SECRET", none, true, ""⟩

/-- Gitleaks leak of the C10 witness. -/
def leak10 : GitleaksLeak := ⟨"shh", "Generic secret", 3⟩

/-- Finding the scan emits for `m10` with masking enabled. -/
def f10 : Finding :=
  ⟨"obj", "aws", "AWS Key", "AKIA1234SECRET", "AKIA...CRET", none, true,
   "Regex match sufficient"⟩

theorem strLeCh_total : ∀ s t, strLeCh s t = true ∨ strLeCh t s = true := by
  intro s
  induction s with
  | nil => intro t; left; rfl
  | cons a as ih =>
    intro t
    cases t with
    | nil => right; rfl
    | cons b bs =>
      by_cases hab : a.toNat < b.toNat
      · left; simp [strLeCh, hab]
      · by_cases hba : b.toNat < a.toNat
        · right; simp [strLeCh, hba]
        · rcases ih bs with h | h
          · left; simp [strLeCh, hab, hba, h]
          · right; simp [strLeCh, hab, hba, h]

theorem strLeCh_trans :
    ∀ s t u, strLeCh s t = true → strLeCh t u = true → strLeCh s u = true := by
  intro s
  induction s with
  | nil => intro t u _ _; rfl
  | cons a as ih =>
    intro t u hst htu
    cases t with
    | nil => simp [strLeCh] at hst
    | cons b bs =>
      cases u with
      | nil => simp [strLeCh] at htu
      | cons c cs =>
        simp only [strLeCh] at hst htu ⊢
        by_cases hab : a.toNat < b.toNat
        · by_cases hbc : b.toNat < c.toNat
          · simp [show a.toNat < c.toNat by omega]
          · by_cases hcb : c.toNat < b.toNat
            · simp [hbc, hcb] at htu
            · simp [show a.toNat < c.toNat by omega]
        · by_cases hba : b.toNat < a.toNat
          · simp [hab, hba] at hst
          · by_cases hbc : b.toNat < c.toNat
            · simp [show a.toNat < c.toNat by omega]
            · by_cases hcb : c.toNat < b.toNat
              · simp [hbc, hcb] at htu
              · have hac : ¬ a.toNat < c.toNat := by omega
                have hca : ¬ c.toNat < a.toNat := by omega
                simp only [hab, hba, if_false, if_neg hac, if_neg hca] at hst ⊢
                simp only [hbc, hcb, if_false] at htu
                exact ih bs cs hst htu

theorem strLe_total (s t : String) : strLe s t = true ∨ strLe t s = true :=
  strLeCh_total s.data t.data

theorem strLe_trans {s t u : String} (h1 : strLe s t = true) (h2 : strLe t u = true) :
    strLe s u = true :=
  strLeCh_trans s.data t.data u.data h1 h2

theorem mem_insertLe {α : Type} (le : α → α → Bool) (a x : α) (l : List α) :
    x ∈ insertLe le a l ↔ x = a ∨ x ∈ l := by
  induction l with
  | nil => simp [insertLe]
  | cons b bs ih =>
    by_cases h : le a b
    · simp only [insertLe, if_pos h, List.mem_cons]
    · simp only [insertLe, if_neg h, List.mem_cons, ih]
      tauto

theorem mem_sortLe {α : Type} (le : α → α → Bool) (x : α) (l : List α) :
    x ∈ sortLe le l ↔ x ∈ l := by
  induction l with
  | nil => simp [sortLe]
  | cons a as ih => simp [sortLe, mem_insertLe, ih]

theorem pairwise_insertLe {α : Type} {le : α → α → Bool}
    (htot : ∀ a b, le a b = true ∨ le b a = true)
    (htrans : ∀ a b c, le a b = true → le b c = true → le a c = true)
    (a : α) {l : List α} (h : l.Pairwise (fun x y => le x y = true)) :
    (insertLe le a l).Pairwise (fun x y => le x y = true) := by
  induction l with
  | nil => simp [insertLe]
  | cons b bs ih =>
    rcases List.pairwise_cons.mp h with ⟨hb, hbs⟩
    by_cases hab : le a b
    · simp only [insertLe, if_pos hab]
      refine List.pairwise_cons.mpr ⟨?_, h⟩
      intro x hx
      rcases List.mem_cons.mp hx with rfl | hx
      · exact hab
      · exact htrans a b x hab (hb x hx)
    · have hba : le b a = true := by
        rcases htot a b with h1 | h1
        · exact absurd h1 hab
        · exact h1
      simp only [insertLe, if_neg hab]
      refine List.pairwise_cons.mpr ⟨?_, ih hbs⟩
      intro x hx
      rcases (mem_insertLe le a x bs).mp hx with rfl | hx
      · exact hba
      · exact hb x hx

theorem pairwise_sortLe {α : Type} {le : α → α → Bool}
    (htot : ∀ a b, le a b = true ∨ le b a = true)
    (htrans : ∀ a b c, le a b = true → le b c = true → le a c = true)
    (l : List α) : (sortLe le l).Pairwise (fun x y => le x y = true) := by
  induction l with
  | nil => simp [sortLe]
  | cons a as ih => exact pairwise_insertLe htot htrans a ih

theorem scan_is_public (exposed : ExposureMap) (http : Http)
    (path : String) (objs : List String) (subs : RawForest) (p : Bool) :
    (scan_folder_recursive exposed http (.node path objs subs) p).is_public =
      (p || hasKey exposed (rstripSlash path) ||
        check_public_access_http http (rstripSlash path ++ "/")) := by
  simp [scan_folder_recursive, FolderNode.is_public]

theorem scan_path (exposed : ExposureMap) (http : Http) (d : RawDir) (p : Bool) :
    (scan_folder_recursive exposed http d p).path = d.path := by
  cases d with
  | node path objs subs => simp [scan_folder_recursive, FolderNode.path, RawDir.path]

theorem scan_parent_public (exposed : ExposureMap) (http : Http) (d : RawDir) :
    (scan_folder_recursive exposed http d true).is_public = true := by
  cases d with
  | node path objs subs => rw [scan_is_public]; simp

theorem mem_scanSubfolders (exposed : ExposureMap) (http : Http) (b : Bool) :
    ∀ (subs : RawForest) (pr : String × FolderNode),
      pr ∈ scanSubfolders exposed http subs b →
      ∃ d : RawDir, pr = (d.path, scan_folder_recursive exposed http d b)
  | .nil, pr, h => by simp [scanSubfolders] at h
  | .cons d ds, pr, h => by
    simp only [scanSubfolders, List.mem_cons] at h
    rcases h with rfl | h
    · exact ⟨d, rfl⟩
    · exact mem_scanSubfolders exposed http b ds pr h

theorem mem_subfolders_scan {exposed : ExposureMap} {http : Http}
    {path : String} {objs : List String} {subs : RawForest} {p : Bool} {c : FolderNode}
    (hc : c ∈ (scan_folder_recursive exposed http (.node path objs subs) p).subfolders) :
    ∃ d : RawDir, c = scan_folder_recursive exposed http d
      ((scan_folder_recursive exposed http (.node path objs subs) p).is_public) := by
  rw [scan_is_public]
  simp only [scan_folder_recursive, FolderNode.subfolders, List.mem_map,
    List.mem_filter] at hc
  obtain ⟨pr, ⟨hpr, _⟩, hc2⟩ := hc
  rw [mem_sortLe] at hpr
  obtain ⟨d, rfl⟩ := mem_scanSubfolders exposed http _ subs pr hpr
  exact ⟨d, hc2.symm⟩

theorem InUTree_scan {exposed : ExposureMap} {http : Http} :
    ∀ {t n : FolderNode}, InUTree t n →
    ∀ {d : RawDir} {p : Bool}, t = scan_folder_recursive exposed http d p →
    ∃ (d' : RawDir) (p' : Bool), n = scan_folder_recursive exposed http d' p' := by
  intro t n h
  induction h with
  | refl t =>
    intro d p ht
    exact ⟨d, p, ht⟩
  | step hc _ ih =>
    intro d p ht
    subst ht
    cases d with
    | node path objs subs =>
      obtain ⟨d', hd'⟩ := mem_subfolders_scan hc
      exact ih hd'

/-- C1. Propagation invariant: in every folder tree produced by
scan_folder_recursive, a node of a public parent is itself public — public
access is inherited downward and never revoked, so no private node has a
public ancestor. -/
theorem C1_propagation_invariant (exposed : ExposureMap) (http : Http)
    (d : RawDir) (p : Bool) (n c : FolderNode)
    (hn : InUTree (scan_folder_recursive exposed http d p) n)
    (hc : c ∈ n.subfolders) (hpub : n.is_public = true) :
    c.is_public = true := by
  obtain ⟨d', p', rfl⟩ := InUTree_scan hn rfl
  cases d' with
  | node path objs subs =>
    obtain ⟨d'', rfl⟩ := mem_subfolders_scan hc
    rw [hpub]
    exact scan_parent_public exposed http d''

theorem scan_object_count (exposed : ExposureMap) (http : Http) (d : RawDir) (p : Bool) :
    (scan_folder_recursive exposed http d p).object_count =
      (scan_folder_recursive exposed http d p).objects.length := by
  cases d with
  | node path objs subs =>
    simp [scan_folder_recursive, FolderNode.object_count, FolderNode.objects]

theorem mem_buildFineSubfolders (acl : AclEnv) (http : Http) :
    ∀ (subs : RawForest) (pr : String × FineNode),
      pr ∈ buildFineSubfolders acl http subs →
      ∃ d : RawDir, pr = (d.path, build_fine_grained_tree acl http d)
  | .nil, pr, h => by simp [buildFineSubfolders] at h
  | .cons d ds, pr, h => by
    simp only [buildFineSubfolders, List.mem_cons] at h
    rcases h with rfl | h
    · exact ⟨d, rfl⟩
    · exact mem_buildFineSubfolders acl http ds pr h

theorem mem_subfolders_build {acl : AclEnv} {http : Http} {d : RawDir} {c : FineNode}
    (hc : c ∈ (build_fine_grained_tree acl http d).subfolders) :
    ∃ d' : RawDir, c = build_fine_grained_tree acl http d' := by
  cases d with
  | node pfx objs subs =>
    simp only [build_fine_grained_tree, FineNode.subfolders, List.mem_map] at hc
    obtain ⟨pr, hpr, hc2⟩ := hc
    rw [mem_sortLe] at hpr
    obtain ⟨d', rfl⟩ := mem_buildFineSubfolders acl http subs pr hpr
    exact ⟨d', hc2.symm⟩

theorem InFTree_build {acl : AclEnv} {http : Http} :
    ∀ {t n : FineNode}, InFTree t n →
    ∀ {d : RawDir}, t = build_fine_grained_tree acl http d →
    ∃ d' : RawDir, n = build_fine_grained_tree acl http d' := by
  intro t n h
  induction h with
  | refl t =>
    intro d ht
    exact ⟨d, ht⟩
  | step hc _ ih =>
    intro d ht
    subst ht
    obtain ⟨d', hd'⟩ := mem_subfolders_build hc
    exact ih hd'

theorem build_total_count (acl : AclEnv) (http : Http) (d : RawDir) :
    (build_fine_grained_tree acl http d).total_object_count =
      (build_fine_grained_tree acl http d).objects.length +
        ((build_fine_grained_tree acl http d).subfolders.map FineNode.total_object_count).sum := by
  cases d with
  | node pfx objs subs =>
    simp [build_fine_grained_tree, FineNode.total_object_count, FineNode.objects,
      FineNode.subfolders]

/-- C2 counterexample: in the tree scanned by scan_folder_recursive over
`sampleTree` (folder `p/` with an empty direct object list and a subfolder
holding one object), the root's recorded `object_count` is 0, not direct
objects (0) plus the subfolder's count (1) — scan_folder_recursive never adds
subfolder counts. -/
theorem C2_count_aggregation_counterexample :
    ¬ ((scan_folder_recursive [] httpDown sampleTree false).object_count =
        (scan_folder_recursive [] httpDown sampleTree false).objects.length +
          ((scan_folder_recursive [] httpDown sampleTree false).subfolders.map
            FolderNode.object_count).sum) := by
  decide

/-- C2 (amended). Count aggregation: in the fine-grained tree built by
build_fine_grained_tree, `total_object_count` at every node equals its direct
object count plus the sum of its subfolders' `total_object_count` (so it
counts all descendant objects); in the uniform-access tree built by
scan_folder_recursive, `object_count` at every node equals the number of the
node's direct objects only — subfolder counts are not aggregated into it. -/
theorem C2_count_aggregation_amended (exposed : ExposureMap) (http http2 : Http)
    (acl : AclEnv) (d d2 : RawDir) (p : Bool) (n : FolderNode) (m : FineNode)
    (hn : InUTree (scan_folder_recursive exposed http d p) n)
    (hm : InFTree (build_fine_grained_tree acl http2 d2) m) :
    n.object_count = n.objects.length ∧
    m.total_object_count =
      m.objects.length + (m.subfolders.map FineNode.total_object_count).sum := by
  constructor
  · obtain ⟨d', p', rfl⟩ := InUTree_scan hn rfl
    exact scan_object_count exposed http d' p'
  · obtain ⟨d', rfl⟩ := InFTree_build hm rfl
    exact build_total_count acl http2 d'

/-- Witness for C2 (amended) at `sampleTree`, taking each root node itself. -/
theorem C2_count_aggregation_amended_witness :
    InUTree (scan_folder_recursive [] httpDown sampleTree false)
      (scan_folder_recursive [] httpDown sampleTree false) ∧
    InFTree (build_fine_grained_tree aclEmpty httpDown sampleTree)
      (build_fine_grained_tree aclEmpty httpDown sampleTree) ∧
    ((scan_folder_recursive [] httpDown sampleTree false).object_count =
      (scan_folder_recursive [] httpDown sampleTree false).objects.length ∧
    (build_fine_grained_tree aclEmpty httpDown sampleTree).total_object_count =
      (build_fine_grained_tree aclEmpty httpDown sampleTree).objects.length +
        ((build_fine_grained_tree aclEmpty httpDown sampleTree).subfolders.map
          FineNode.total_object_count).sum) :=
  ⟨.refl _, .refl _,
    C2_count_aggregation_amended [] httpDown httpDown aclEmpty sampleTree sampleTree
      false _ _ (.refl _) (.refl _)⟩

theorem scanSubfolders_snd_path (exposed : ExposureMap) (http : Http) (b : Bool)
    (subs : RawForest) (pr : String × FolderNode)
    (h : pr ∈ scanSubfolders exposed http subs b) : pr.2.path = pr.1 := by
  obtain ⟨d, rfl⟩ := mem_scanSubfolders exposed http b subs pr h
  simp [scan_path]

theorem scan_objects_eq (exposed : ExposureMap) (http : Http)
    (path : String) (objs : List String) (subs : RawForest) (p : Bool) :
    (scan_folder_recursive exposed http (.node path objs subs) p).objects =
      sortLe strLe objs := by
  simp [scan_folder_recursive, FolderNode.objects]

theorem scan_subfolders_paths_pairwise (exposed : ExposureMap) (http : Http)
    (path : String) (objs : List String) (subs : RawForest) (p : Bool) :
    ((scan_folder_recursive exposed http (.node path objs subs) p).subfolders.map
      FolderNode.path).Pairwise (fun a b => strLe a b = true) := by
  have htot : ∀ a b : String × FolderNode,
      (fun x y : String × FolderNode => strLe x.1 y.1) a b = true ∨
      (fun x y : String × FolderNode => strLe x.1 y.1) b a = true :=
    fun a b => strLe_total a.1 b.1
  have htrans : ∀ a b c : String × FolderNode,
      (fun x y : String × FolderNode => strLe x.1 y.1) a b = true →
      (fun x y : String × FolderNode => strLe x.1 y.1) b c = true →
      (fun x y : String × FolderNode => strLe x.1 y.1) a c = true :=
    fun _ _ _ h1 h2 => strLe_trans h1 h2
  simp only [scan_folder_recursive, FolderNode.subfolders, List.map_map]
  have hfst : ∀ pr ∈ ((sortLe (fun a b : String × FolderNode => strLe a.1 b.1)
      (scanSubfolders exposed http subs
        (p || hasKey exposed (rstripSlash path) ||
          check_public_access_http http (rstripSlash path ++ "/")))).filter
      fun pr => subRelOk path pr.1),
      (FolderNode.path ∘ fun pr : String × FolderNode => pr.2) pr = pr.1 := by
    intro pr hpr
    have h1 := (List.mem_filter.mp hpr).1
    rw [mem_sortLe] at h1
    exact scanSubfolders_snd_path exposed http _ subs pr h1
  rw [List.map_congr_left hfst]
  refine List.pairwise_map.mpr ?_
  exact ((pairwise_sortLe htot htrans _).sublist (List.filter_sublist _))

/-- C9 counterexample: a folder `p/` holding sibling subfolders named `a!`
and `a`. The scan sorts the sibling prefixes by full path, and
`p/a!/ < p/a/` because the code point of `!` is below that of `/`, so the
subfolder nodes appear with names `["a!", "a"]` — not in lexicographic order
by name, refuting the claim as stated for subfolders. -/
theorem C9_sibling_order_counterexample :
    ¬ (((scan_folder_recursive [] httpDown
          (.node "p/" []
            (.cons (.node "p/a!/" [] .nil) (.cons (.node "p/a/" [] .nil) .nil)))
          false).subfolders.map FolderNode.name).Pairwise
        fun a b => strLe a b = true) := by
  decide

/-- C9 (amended). Sibling ordering: in every folder tree produced by
scan_folder_recursive, the direct objects of a node appear in lexicographic
order by name and its subfolders appear in lexicographic order by full path
(their order by display name can differ when one sibling name extends another
with a character below `/`), regardless of the order in which the storage
gateway's listing returned them. -/
theorem C9_sibling_order_amended (exposed : ExposureMap) (http : Http)
    (d : RawDir) (p : Bool) (n : FolderNode)
    (hn : InUTree (scan_folder_recursive exposed http d p) n) :
    n.objects.Pairwise (fun a b => strLe a b = true) ∧
    (n.subfolders.map FolderNode.path).Pairwise (fun a b => strLe a b = true) := by
  obtain ⟨d', p', rfl⟩ := InUTree_scan hn rfl
  cases d' with
  | node path objs subs =>
    constructor
    · rw [scan_objects_eq]
      exact pairwise_sortLe strLe_total (fun _ _ _ h1 h2 => strLe_trans h1 h2) objs
    · exact scan_subfolders_paths_pairwise exposed http path objs subs p'

/-- Witness for C9 (amended) at `sampleTree` (the gateway listing order is
the identity here; a scrambled listing is exercised by the sort lemmas). -/
theorem C9_sibling_order_amended_witness :
    InUTree (scan_folder_recursive [] httpDown sampleTree false)
      (scan_folder_recursive [] httpDown sampleTree false) ∧
    ((scan_folder_recursive [] httpDown sampleTree false).objects.Pairwise
      (fun a b => strLe a b = true) ∧
    ((scan_folder_recursive [] httpDown sampleTree false).subfolders.map
      FolderNode.path).Pairwise (fun a b => strLe a b = true)) :=
  ⟨.refl _, C9_sibling_order_amended [] httpDown sampleTree false _ (.refl _)⟩

/-- Witness for C1: with every probe answering 200, scanning `sampleTree`
makes `p/` public, and its subfolder node is public as well. -/
theorem C1_propagation_invariant_witness :
    InUTree (scan_folder_recursive [] httpAll200 sampleTree false)
      (scan_folder_recursive [] httpAll200 sampleTree false) ∧
    scan_folder_recursive [] httpAll200 (.node "p/q/" ["p/q/x"] .nil) true ∈
      (scan_folder_recursive [] httpAll200 sampleTree false).subfolders ∧
    (scan_folder_recursive [] httpAll200 sampleTree false).is_public = true ∧
    (scan_folder_recursive [] httpAll200 (.node "p/q/" ["p/q/x"] .nil) true).is_public = true := by
  have hmem : scan_folder_recursive [] httpAll200 (.node "p/q/" ["p/q/x"] .nil) true ∈
      (scan_folder_recursive [] httpAll200 sampleTree false).subfolders := by
    have h : (scan_folder_recursive [] httpAll200 sampleTree false).subfolders =
        [scan_folder_recursive [] httpAll200 (.node "p/q/" ["p/q/x"] .nil) true] := rfl
    rw [h]
    exact List.mem_singleton.mpr rfl
  exact ⟨.refl _, hmem, by decide,
    C1_propagation_invariant [] httpAll200 sampleTree false _ _ (.refl _) hmem (by decide)⟩

/-- C3. Classifier decision order, first match wins: a public parent forces a
public node with the parent-inheritance reason; otherwise a hit of the
slash-stripped prefix in the exposure map forces a public node whose reason
cites the IAM condition and the governing role, with the HTTP probe playing
no part in the outcome (the classification is the same under any probe
layer); otherwise the node is public exactly when the HTTP probe succeeds. -/
theorem C3_classifier_decision_order (exposed : ExposureMap) (http http2 : Http)
    (path : String) (objs : List String) (subs : RawForest) (p : Bool) :
    (p = true →
      (scan_folder_recursive exposed http (.node path objs subs) p).is_public = true ∧
      (scan_folder_recursive exposed http (.node path objs subs) p).reason =
        "Parent folder is public, so this folder is public") ∧
    (p = false → hasKey exposed (rstripSlash path) = true →
      (scan_folder_recursive exposed http (.node path objs subs) p).is_public = true ∧
      (∀ (b : ExposureBinding) (rest : List ExposureBinding),
        lookupEntry exposed (rstripSlash path) = some (b :: rest) →
        (scan_folder_recursive exposed http (.node path objs subs) p).reason =
          "Direct public via IAM condition: " ++ b.role) ∧
      (scan_folder_recursive exposed http (.node path objs subs) p).is_public =
        (scan_folder_recursive exposed http2 (.node path objs subs) p).is_public ∧
      (scan_folder_recursive exposed http (.node path objs subs) p).reason =
        (scan_folder_recursive exposed http2 (.node path objs subs) p).reason) ∧
    (p = false → hasKey exposed (rstripSlash path) = false →
      (scan_folder_recursive exposed http (.node path objs subs) p).is_public =
        check_public_access_http http (rstripSlash path ++ "/") ∧
      (check_public_access_http http (rstripSlash path ++ "/") = false →
        (scan_folder_recursive exposed http (.node path objs subs) p).reason =
          "Private (no IAM condition, HTTP test failed)")) := by
  refine ⟨?_, ?_, ?_⟩
  · intro hp
    subst hp
    constructor
    · simp [scan_is_public]
    · simp [scan_folder_recursive, FolderNode.reason]
  · intro hp hk
    subst hp
    refine ⟨?_, ?_, ?_, ?_⟩
    · simp [scan_is_public, hk]
    · intro b rest hlk
      simp [scan_folder_recursive, FolderNode.reason, hk, hlk]
    · simp [scan_is_public, hk]
    · simp [scan_folder_recursive, FolderNode.reason, hk]
  · intro hp hk
    subst hp
    constructor
    · simp [scan_is_public, hk]
    · intro hprobe
      simp [scan_folder_recursive, FolderNode.reason, hk, hprobe]

/-- Witness for C3: under `c3Map`, folder `public/` (non-public parent)
classifies public with the IAM-condition reason naming the role, and folder
`private/` (no map entry, failing probe) classifies private. -/
theorem C3_classifier_decision_order_witness :
    hasKey c3Map (rstripSlash "public/") = true ∧
    (scan_folder_recursive c3Map httpDown (.node "public/" [] .nil) false).is_public = true ∧
    (scan_folder_recursive c3Map httpDown (.node "public/" [] .nil) false).reason =
      "Direct public via IAM condition: roles/storage.objectViewer" ∧
    hasKey c3Map (rstripSlash "private/") = false ∧
    (scan_folder_recursive c3Map httpDown (.node "private/" [] .nil) false).is_public = false := by
  refine ⟨by decide, ?_, ?_, by decide, ?_⟩
  · exact ((C3_classifier_decision_order c3Map httpDown httpDown "public/" [] .nil
      false).2.1 rfl (by decide)).1
  · exact (((C3_classifier_decision_order c3Map httpDown httpDown "public/" [] .nil
      false).2.1 rfl (by decide)).2.1
      ⟨"roles/storage.objectViewer", ["allUsers"],
       "resource.name.startsWith(\"projects/_/buckets/b/objects/public/\")", false⟩
      [] (by decide))
  · exact (((C3_classifier_decision_order c3Map httpDown httpDown "private/" [] .nil
      false).2.2 rfl (by decide)).1).trans (by decide)

theorem check_http_congr {h1 h2 : Http} {path : String} (heq : h2 path = h1 path) :
    check_public_access_http h2 path = check_public_access_http h1 path := by
  simp [check_public_access_http, heq]

/-- C4. Bucket-level public short-circuit: in a uniform whole-bucket scan,
when the bucket itself is publicly exposed (the empty prefix is a key of the
exposure map, or the root probe succeeds), the scan returns the single
CRITICAL result with an empty folder list — and no recursive tree walk
happens: the result is identical for any listing and for any probe layer
that agrees at the root, so in particular no per-folder probe is consulted. -/
theorem C4_bucket_short_circuit (bucket_name : String) (bindings : List IamBinding)
    (http : Http) (root : RawDir)
    (hpub : (hasKey (get_exposed_prefixes_from_iam bindings bucket_name) "" ||
      check_public_access_http http "") = true) :
    scan_bucket_uniform_access bucket_name true bindings http root =
      .ok bucket_name true [] none
        ⟨"CRITICAL", "Bucket is completely PUBLIC! All folders and objects are exposed.",
         some "Detected via IAM Policy or HTTP test", none, none, none, none⟩ ∧
    ∀ (http2 : Http) (root2 : RawDir), http2 "" = http "" →
      scan_bucket_uniform_access bucket_name true bindings http2 root2 =
        scan_bucket_uniform_access bucket_name true bindings http root := by
  have hcrit : ∀ (h : Http) (r : RawDir),
      (hasKey (get_exposed_prefixes_from_iam bindings bucket_name) "" ||
        check_public_access_http h "") = true →
      scan_bucket_uniform_access bucket_name true bindings h r =
        .ok bucket_name true [] none
          ⟨"CRITICAL", "Bucket is completely PUBLIC! All folders and objects are exposed.",
           some "Detected via IAM Policy or HTTP test", none, none, none, none⟩ := by
    intro h r hp
    simp [scan_bucket_uniform_access, hp]
  refine ⟨hcrit http root hpub, ?_⟩
  intro http2 root2 heq
  have hpub2 : (hasKey (get_exposed_prefixes_from_iam bindings bucket_name) "" ||
      check_public_access_http http2 "") = true := by
    rcases (Bool.or_eq_true _ _).mp hpub with hk | hc
    · simp [hk]
    · rw [check_http_congr heq, hc]
      simp
  rw [hcrit http2 root2 hpub2, hcrit http root hpub]

/-- Witness for C4: a bucket-wide binding puts the empty prefix in the
exposure map; the whole-bucket scan short-circuits even though every probe
fails and the listing has folders. -/
theorem C4_bucket_short_circuit_witness :
    (hasKey (get_exposed_prefixes_from_iam [bucketWideBinding] "b") "" ||
      check_public_access_http httpDown "") = true ∧
    (scan_bucket_uniform_access "b" true [bucketWideBinding] httpDown rootSample =
      .ok "b" true [] none
        ⟨"CRITICAL", "Bucket is completely PUBLIC! All folders and objects are exposed.",
         some "Detected via IAM Policy or HTTP test", none, none, none, none⟩ ∧
    scan_bucket_uniform_access "b" true [bucketWideBinding] httpSecrets sampleTree =
      scan_bucket_uniform_access "b" true [bucketWideBinding] httpDown rootSample) :=
  ⟨by decide,
   (C4_bucket_short_circuit "b" [bucketWideBinding] httpDown rootSample (by decide)).1,
   (C4_bucket_short_circuit "b" [bucketWideBinding] httpDown rootSample (by decide)).2
     httpSecrets sampleTree rfl⟩

/-- C5. Mode mismatch handling: the fine-grained scan on a uniform-access
bucket, and the uniform scan on a fine-grained bucket, each return the
structured mode-mismatch result naming the correct mode — no exception (the
embedded functions are total) and no tree built with the wrong algorithm. -/
theorem C5_mode_mismatch (bucket_name : String)
    (bindings bindings2 : List IamBinding) (acl : AclEnv) (http http2 : Http)
    (root root2 : RawDir) :
    scan_bucket_fine_grained_access bucket_name true bindings acl http root =
      .mismatch "This bucket is not in Fine-Grained mode. Using Uniform Access."
        bucket_name true ∧
    scan_bucket_uniform_access bucket_name false bindings2 http2 root2 =
      .mismatch "This bucket is not in Uniform Access mode. Using fine-grained ACL."
        bucket_name false :=
  ⟨rfl, rfl⟩

/-- C6. HTTP probe fail-closed with a bounded timeout: the probe is true
exactly when the request completes with status 200 (any network failure,
timeout firing, or non-200 status yields false; the embedded probe is a total
function, so no exception escapes), the timeout constant is 5 seconds, and a
folder with no IAM exposure whose probe returns 200 classifies public with
the reason citing the HTTP access test. -/
theorem C6_http_probe_fail_closed (http : Http) (path : String)
    (exposed : ExposureMap) (fpath : String) (objs : List String) (subs : RawForest) :
    (check_public_access_http http path = true ↔ http path = .ok 200) ∧
    http_probe_timeout_seconds = 5 ∧
    (hasKey exposed (rstripSlash fpath) = false →
      http (rstripSlash fpath ++ "/") = .ok 200 →
      (scan_folder_recursive exposed http (.node fpath objs subs) false).is_public = true ∧
      (scan_folder_recursive exposed http (.node fpath objs subs) false).reason =
        "Detected public via HTTP access test") := by
  refine ⟨?_, rfl, ?_⟩
  · cases hh : http path with
    | ok code => simp [check_public_access_http, hh]
    | error e => simp [check_public_access_http, hh]
  · intro hk h200
    have hcheck : check_public_access_http http (rstripSlash fpath ++ "/") = true := by
      simp [check_public_access_http, h200]
    constructor
    · simp [scan_is_public, hk, hcheck]
    · simp [scan_folder_recursive, FolderNode.reason, hk, hcheck]

/-- Witness for C6 at the probe layer `httpSecrets` and folder `secrets/`
with an empty exposure map. -/
theorem C6_http_probe_fail_closed_witness :
    check_public_access_http httpSecrets "secrets/" = true ∧
    hasKey [] (rstripSlash "secrets/") = false ∧
    httpSecrets (rstripSlash "secrets/" ++ "/") = .ok 200 ∧
    (scan_folder_recursive [] httpSecrets (.node "secrets/" [] .nil) false).is_public = true ∧
    (scan_folder_recursive [] httpSecrets (.node "secrets/" [] .nil) false).reason =
      "Detected public via HTTP access test" := by
  have h := (C6_http_probe_fail_closed httpSecrets "secrets/" [] "secrets/" [] .nil).2.2
    (by decide) rfl
  exact ⟨by decide, by decide, rfl, h.1, h.2⟩

theorem extract_none_of_search_none {expr bucket_name : String}
    (h1 : searchCond "startsWith" bucket_name expr.data = none)
    (h2 : searchCond "matches" bucket_name expr.data = none) :
    _extract_prefix_from_condition expr bucket_name = none := by
  simp [_extract_prefix_from_condition, h1, h2]

theorem processBinding_skip_not_qualifying {bucket_name : String}
    {exposed : ExposureMap} {binding : IamBinding}
    (h : (binding.members.filter fun m =>
        m == "allUsers" || m == "allAuthenticatedUsers").isEmpty = true ∨
      (strContainsStr "storage.objectViewer" binding.role = false ∧
       strContainsStr "storage.legacyObjectReader" binding.role = false)) :
    processBinding bucket_name exposed binding = exposed := by
  unfold processBinding
  rcases h with h | ⟨hr1, hr2⟩
  · simp [h]
  · by_cases h1 : (binding.members.filter fun m =>
        m == "allUsers" || m == "allAuthenticatedUsers").isEmpty
    · simp [h1]
    · simp [h1, hr1, hr2]

theorem processBinding_skip_extract_none {bucket_name : String}
    {exposed : ExposureMap} {binding : IamBinding} {expr : String}
    (hc : binding.condition = some expr)
    (hx : _extract_prefix_from_condition expr bucket_name = none) :
    processBinding bucket_name exposed binding = exposed := by
  unfold processBinding
  rw [hc]
  by_cases h1 : (binding.members.filter fun m =>
      m == "allUsers" || m == "allAuthenticatedUsers").isEmpty
  · simp [h1]
  · by_cases h2 : (!strContainsStr "storage.objectViewer" binding.role &&
        !strContainsStr "storage.legacyObjectReader" binding.role)
    · simp [h1, h2]
    · simp [h1, h2, hx]

/-- C7. IAM parser binding filtering and soft failure: a binding contributes
to the exposure map only if its member set meets
{allUsers, allAuthenticatedUsers} and its role contains an object-read role
(storage.objectViewer or storage.legacyObjectReader); and for a binding whose
condition expression matches neither the startsWith nor the matches predicate
shape, the extractor returns none and the binding is silently ignored — the
map (and the whole-policy parse) is unchanged, with no error. -/
theorem C7_iam_filter_soft_fail (bucket_name : String) (exposed : ExposureMap)
    (binding : IamBinding) :
    (((binding.members.filter fun m =>
        m == "allUsers" || m == "allAuthenticatedUsers").isEmpty = true ∨
      (strContainsStr "storage.objectViewer" binding.role = false ∧
       strContainsStr "storage.legacyObjectReader" binding.role = false)) →
      processBinding bucket_name exposed binding = exposed) ∧
    (∀ expr : String, binding.condition = some expr →
      searchCond "startsWith" bucket_name expr.data = none →
      searchCond "matches" bucket_name expr.data = none →
      _extract_prefix_from_condition expr bucket_name = none ∧
      processBinding bucket_name exposed binding = exposed ∧
      ∀ bs : List IamBinding,
        get_exposed_prefixes_from_iam (bs ++ [binding]) bucket_name =
          get_exposed_prefixes_from_iam bs bucket_name) := by
  constructor
  · exact processBinding_skip_not_qualifying
  · intro expr hc h1 h2
    have hx := extract_none_of_search_none h1 h2
    refine ⟨hx, processBinding_skip_extract_none hc hx, ?_⟩
    intro bs
    unfold get_exposed_prefixes_from_iam
    rw [List.foldl_append]
    simp only [List.foldl_cons, List.foldl_nil]
    exact processBinding_skip_extract_none hc hx

/-- Witness for C7: the endsWith condition extracts no prefix and the
qualifying binding contributes nothing; a binding without public members
contributes nothing either. -/
theorem C7_iam_filter_soft_fail_witness :
    _extract_prefix_from_condition c7expr "b" = none ∧
    processBinding "b" [] c7Binding = [] ∧
    get_exposed_prefixes_from_iam [c7Binding] "b" = [] ∧
    processBinding "b" [] c7NoPub = [] := by
  obtain ⟨hx, hp, hmap⟩ :=
    (C7_iam_filter_soft_fail "b" [] c7Binding).2 c7expr rfl (by decide) (by decide)
  refine ⟨hx, hp, ?_, ?_⟩
  · simpa using hmap []
  · exact (C7_iam_filter_soft_fail "b" [] c7NoPub).1 (Or.inl (by decide))

theorem build_objects_classified {acl : AclEnv} {http : Http} {d : RawDir} {o : ObjEntry}
    (ho : o ∈ (build_fine_grained_tree acl http d).objects) :
    o.is_public = (is_public_acl acl o.name || check_public_access_http http o.name) := by
  cases d with
  | node pfx objs subs =>
    simp only [build_fine_grained_tree, FineNode.objects, List.mem_map] at ho
    obtain ⟨nm, _, rfl⟩ := ho
    rfl

theorem is_public_acl_of_entry {acl : AclEnv} {name : String}
    {entries : List AclEntry} {e : AclEntry}
    (ha : acl name = .ok entries) (he : e ∈ entries) (hr : e.role = "READER")
    (hent : e.entity = "allUsers" ∨ e.entity = "allAuthenticatedUsers") :
    is_public_acl acl name = true := by
  simp only [is_public_acl, ha]
  refine List.any_eq_true.mpr ⟨e, he, ?_⟩
  rcases hent with h | h <;> simp [hr, h]

/-- C8. Fine-grained per-object ACL classification: in the fine-grained tree
every object's flag is exactly `is_public_acl || HTTP probe` — a computation
that takes no IAM exposure map at all, so it is independent of IAM
conditions. Hence an object carrying an ACL entry with entity
allUsers/allAuthenticatedUsers and role READER is public, and a sibling with
no such entry and a failing probe is private. -/
theorem C8_fine_grained_acl (acl : AclEnv) (http : Http) (d : RawDir)
    (m : FineNode) (o : ObjEntry)
    (hm : InFTree (build_fine_grained_tree acl http d) m) (ho : o ∈ m.objects) :
    o.is_public = (is_public_acl acl o.name || check_public_access_http http o.name) ∧
    (∀ (entries : List AclEntry) (e : AclEntry), acl o.name = .ok entries →
      e ∈ entries → e.role = "READER" →
      (e.entity = "allUsers" ∨ e.entity = "allAuthenticatedUsers") →
      o.is_public = true) ∧
    (is_public_acl acl o.name = false → check_public_access_http http o.name = false →
      o.is_public = false) := by
  obtain ⟨d', rfl⟩ := InFTree_build hm rfl
  have hcl := @build_objects_classified acl http d' o ho
  refine ⟨hcl, ?_, ?_⟩
  · intro entries e ha he hr hent
    rw [hcl, is_public_acl_of_entry ha he hr hent]
    simp
  · intro h1 h2
    rw [hcl, h1, h2]
    rfl

/-- Witness for C8: in the tree over `dC8` with all probes failing, `f/x`
(ACL-public) classifies public and its sibling `f/y` classifies private. -/
theorem C8_fine_grained_acl_witness :
    aclC8 "f/x" = .ok [⟨"allUsers", "READER"⟩] ∧
    ObjEntry.mk "f/x" true ∈ (build_fine_grained_tree aclC8 httpDown dC8).objects ∧
    ObjEntry.mk "f/y" false ∈ (build_fine_grained_tree aclC8 httpDown dC8).objects ∧
    (ObjEntry.mk "f/x" true).is_public = true ∧
    (ObjEntry.mk "f/y" false).is_public = false :=
  ⟨rfl, by decide, by decide,
    (C8_fine_grained_acl aclC8 httpDown dC8 _ _ (.refl _) (by decide)).2.1
      [⟨"allUsers", "READER"⟩] ⟨"allUsers", "READER"⟩ rfl (by decide) rfl (Or.inl rfl),
    (C8_fine_grained_acl aclC8 httpDown dC8 _ _ (.refl _) (by decide)).2.2
      (by decide) (by decide)⟩

theorem patternFinding_masked {object_name : String} {no_mask : Bool}
    {m : PatternMatch} {f : Finding}
    (h : patternFinding object_name no_mask m = some f) :
    f.match_masked = maskCandidate no_mask f.match_raw := by
  unfold patternFinding at h
  split at h
  · split at h
    · exact Option.noConfusion h
    · cases Option.some.inj h
      rfl
  · cases Option.some.inj h
    rfl

theorem gitleaksFinding_masked (object_name : String) (no_mask : Bool)
    (leak : GitleaksLeak) :
    (gitleaksFinding object_name no_mask leak).match_masked =
      maskCandidate no_mask (gitleaksFinding object_name no_mask leak).match_raw := by
  cases no_mask <;> rfl

/-- C10. Masking rule for findings: every finding the pattern scan emits —
from the regex loop or from the gitleaks integration — has `match_masked`
equal to the raw match when `no_mask` is set, and otherwise to the first four
characters, `"..."`, and the last four characters when the raw match is
longer than eight characters, or `"..."` alone when it is not. -/
theorem C10_masking_rule (object_name : String) (no_mask : Bool)
    (regex_matches : List PatternMatch) (use_gitleaks : Bool)
    (leaks : List GitleaksLeak) (f : Finding)
    (hf : f ∈ _scan_object_for_patterns object_name no_mask regex_matches
      use_gitleaks leaks) :
    f.match_masked =
      (if no_mask then f.match_raw
       else if f.match_raw.length > 8 then
         strTakeN 4 f.match_raw ++ "..." ++ strTakeRightN 4 f.match_raw
       else "...") := by
  simp only [_scan_object_for_patterns, List.mem_append] at hf
  rcases hf with hf | hf
  · rw [List.mem_filterMap] at hf
    obtain ⟨m, _, hm⟩ := hf
    exact patternFinding_masked hm
  · by_cases hg : use_gitleaks
    · rw [if_pos hg, List.mem_map] at hf
      obtain ⟨leak, _, rfl⟩ := hf
      exact gitleaksFinding_masked object_name no_mask leak
    · rw [if_neg hg] at hf
      exact absurd hf (List.not_mem_nil f)

/-- Witness for C10: with masking enabled, the 14-character raw match yields
`AKIA...CRET`. -/
theorem C10_masking_rule_witness :
    f10 ∈ _scan_object_for_patterns "obj" false [m10] true [leak10] ∧
    f10.match_masked =
      (if false then f10.match_raw
       else if f10.match_raw.length > 8 then
         strTakeN 4 f10.match_raw ++ "..." ++ strTakeRightN 4 f10.match_raw
       else "...") :=
  ⟨by decide, C10_masking_rule "obj" false [m10] true [leak10] f10 (by decide)⟩

end Gcsa

